import Mathlib

/-!
Shallow embedding of the `assist` Frappe application, covering the batch
camera-upload pipeline (`stock_camera_upload.py`), the marketplace hustle
routine (`marketplace_hustle.py`), the stubbed capabilities
(`fetch_marketplace_items`, `check_bruktdel_listing`,
`orchestrate_pickup_route`) and the frost-risk assessment (`weather_yr.py`).

Database writes (`self.save()`, `frappe.db.set_value`, `frappe.db.commit`)
are modelled as pure state updates or as entries of an effect trace; the
effectful calls whose outcome the claims quantify over
(`_process_single_image`, `process_single_search`, `frappe.get_doc`,
JSON parsing, weather fetches) are modelled as oracle arguments, so that
the theorems hold for every behaviour of those calls.  Wall-clock timing
(`time.time()`, `processing_time`) is outside the embedding.
-/

namespace Assist

/-! Section: Stock Camera Upload: data model

Mirrors the `Stock Camera Upload` doctype: the `images` child table rows,
the `items_created` child table rows, and the summary fields written by
`process_all_images`.  Python `None` becomes `Option`, and a falsy
`image_name` (absent or empty) is modelled as `none`. -/

structure ImageRow where
  image_file : String
  image_name : Option String
  status : String
  item_code : Option String
  error_message : Option String
deriving Repr, DecidableEq

structure CreatedItem where
  item_code : String
  item_name : Option String
  warehouse : Option String
  qty : Nat
  valuation_rate : Int
  stock_entry : Option String
  image_reference : String
deriving Repr, DecidableEq

structure UploadDoc where
  name : String
  warehouse : Option String
  default_valuation_rate : Option Int
  images : List ImageRow
  items_created : List CreatedItem
  status : String
  total_items_created : Nat
  failed_count : Nat
deriving Repr, DecidableEq

/-- Outcome of one call of `_process_single_image` on an image row:
`ok` is a returned dict with `success: True` (carrying `item_code`,
`item_name`, optional `valuation_rate`, optional `stock_entry`),
`err` is a returned dict with `success: False` and its `error` value
(`none` models a dict without an `error` key, read back through
`result.get("error", "Unknown error")`), and `exn` is a raised exception
with its message.  `_process_single_image` performs I/O, so the loop of
`process_all_images` is verified for every outcome function. -/
inductive ProcOutcome where
  | ok (item_code : String) (item_name : Option String)
      (valuation_rate : Option Int) (stock_entry : Option String)
  | err (msg : Option String)
  | exn (msg : String)
deriving Repr, DecidableEq

def ProcOutcome.isOk : ProcOutcome → Bool
  | .ok _ _ _ _ => true
  | .err _ => false
  | .exn _ => false

/-- The body of the `for idx, image_row in enumerate(self.images)` loop of
`process_all_images` (lines 46-86): returns the updated row and the
`items_created` entry appended for it (if any).  On `ok` the row becomes
`Completed` with its `item_code` set and a created-items entry is built
exactly as in `self.append("items_created", {...})`; on `err` and on `exn`
the row becomes `Failed` with `error_message` set. -/
def rowStep (doc : UploadDoc) (idx : Nat) (row : ImageRow) (o : ProcOutcome) :
    ImageRow × Option CreatedItem :=
  match o with
  | .ok code nm vr se =>
      ({ row with status := "Completed", item_code := some code },
       some { item_code := code
              item_name := nm
              warehouse := doc.warehouse
              qty := 1
              valuation_rate := vr.getD (doc.default_valuation_rate.getD 0)
              stock_entry := se
              image_reference := row.image_name.getD ("Image " ++ toString (idx + 1)) })
  | .err msg =>
      ({ row with status := "Failed", error_message := some (msg.getD "Unknown error") }, none)
  | .exn msg =>
      ({ row with status := "Failed", error_message := some msg }, none)

/-- The loop of `process_all_images`, processing the rows in order starting
at index `idx`, threading the success and failure counters.  Returns
(updated rows, created-items entries in order, success_count, failed_count). -/
def processRows (doc : UploadDoc) (o : Nat → ProcOutcome) :
    Nat → List ImageRow → List ImageRow × List CreatedItem × Nat × Nat
  | _, [] => ([], [], 0, 0)
  | idx, r :: rs =>
      let step := rowStep doc idx r (o idx)
      let rest := processRows doc o (idx + 1) rs
      (step.1 :: rest.1,
       (match step.2 with
        | some c => c :: rest.2.1
        | none => rest.2.1),
       (if (o idx).isOk then rest.2.2.1 + 1 else rest.2.2.1),
       (if (o idx).isOk then rest.2.2.2 else rest.2.2.2 + 1))

/-- The dictionary returned by `process_all_images` (lines 105-111), minus
the wall-clock `processing_time`. -/
structure RunResult where
  success : Bool
  total_images : Nat
  items_created : Nat
  failed : Nat
deriving Repr, DecidableEq

/-- The non-empty branch of `process_all_images` (lines 38-111): runs the
loop over all image rows, writes the summary fields (`total_items_created`,
`failed_count`) and the final status (`Completed` / `Failed` /
`Partially Completed`), and builds the returned result dictionary. -/
def runUpload (o : Nat → ProcOutcome) (doc : UploadDoc) : UploadDoc × RunResult :=
  let r := processRows doc o 0 doc.images
  let s := r.2.2.1
  let f := r.2.2.2
  ({ doc with
     images := r.1
     items_created := doc.items_created ++ r.2.1
     total_items_created := s
     failed_count := f
     status :=
       if f = 0 then "Completed"
       else if s = 0 then "Failed"
       else "Partially Completed" },
   { success := true, total_images := r.1.length, items_created := s, failed := f })

/-- Embedding of `process_all_images` (lines 30-111): throws
`"No images uploaded to process"` on an empty `images` table, otherwise
processes every row sequentially and returns the updated document together
with the result dictionary. -/
def process_all_images (o : Nat → ProcOutcome) (doc : UploadDoc) :
    Except String (UploadDoc × RunResult) :=
  match doc.images with
  | [] => .error "No images uploaded to process"
  | _ :: _ => .ok (runUpload o doc)

/-- Number of indices in `[idx, idx+n)` whose outcome is a success. -/
def okCount (o : Nat → ProcOutcome) (idx n : Nat) : Nat :=
  (List.range' idx n).countP (fun j => (o j).isOk)

/-- Number of indices in `[idx, idx+n)` whose outcome is a failure. -/
def failCount (o : Nat → ProcOutcome) (idx n : Nat) : Nat :=
  (List.range' idx n).countP (fun j => !(o j).isOk)

/-- The updated row produced for an (index, input row) pair. -/
def rowResult (doc : UploadDoc) (o : Nat → ProcOutcome) (p : Nat × ImageRow) : ImageRow :=
  (rowStep doc p.1 p.2 (o p.1)).1

/-- The created-items entry (if any) produced for an (index, input row) pair. -/
def rowCreated (doc : UploadDoc) (o : Nat → ProcOutcome) (p : Nat × ImageRow) :
    Option CreatedItem :=
  (rowStep doc p.1 p.2 (o p.1)).2

/-- Concrete two-image upload document used to evaluate the pipeline. -/
def sampleUploadDoc : UploadDoc :=
  { name := "SCU-0001", warehouse := some "Main", default_valuation_rate := none,
    images := [⟨"/files/a.png", some "A", "Pending", none, none⟩,
               ⟨"/files/b.png", some "B", "Pending", none, none⟩],
    items_created := [], status := "Draft",
    total_items_created := 0, failed_count := 0 }

/-- Concrete outcome function: image 0 succeeds, every later image raises. -/
def sampleOutcome : Nat → ProcOutcome :=
  fun i => if i = 0 then .ok "ITEM1" none none none else .exn "boom"

/-! Section: Whitelisted endpoints over the pipeline

`process_batch_upload` and `quick_batch_upload`
(`stock_camera_upload.py` lines 268-376).  `frappe.get_doc`, JSON parsing,
`File` insertion and document insertion are I/O, so they enter as oracle
arguments (`Except.error` models a raised exception); the surrounding
`try/except` of each endpoint turns any such error into a
`success: False` dictionary, modelled by the `fail` constructor. -/

/-- Result dictionary of `process_batch_upload`: either the dictionary
returned by `process_all_images` or `{"success": False, "error": e}`. -/
inductive ApiResponse where
  | ok (r : RunResult)
  | fail (error : String)
deriving Repr, DecidableEq

/-- Embedding of `process_batch_upload` (lines 268-288): load the document, process it,
and catch every exception into an error dictionary. -/
def process_batch_upload (getDoc : Except String UploadDoc) (o : Nat → ProcOutcome) :
    ApiResponse :=
  match getDoc with
  | .error e => .fail e
  | .ok doc =>
      match process_all_images o doc with
      | .error e => .fail e
      | .ok (_, r) => .ok r

/-- Result of parsing the `images` argument of `quick_batch_upload`:
a JSON list of image strings, or a parsed value that is not a list. -/
inductive ParsedImages where
  | list (imgs : List String)
  | notList
deriving Repr, DecidableEq

/-- Success dictionary of `quick_batch_upload`. -/
structure QuickOk where
  upload_name : String
  items_created : Nat
  failed : Nat
deriving Repr, DecidableEq

inductive QuickResponse where
  | ok (r : QuickOk)
  | fail (error : String)
deriving Repr, DecidableEq

/-- The image-saving loop of `quick_batch_upload` (lines 342-356): for each
image a `File` document is inserted (oracle `fileUrl`, which may raise) and
a `Pending` child row is appended with the file url and the name
`Image {idx+1}`. -/
def buildImageRows (fileUrl : Nat → Except String String) :
    Nat → List String → Except String (List ImageRow)
  | _, [] => .ok []
  | idx, _ :: rest =>
      match fileUrl idx with
      | .error e => .error e
      | .ok url =>
          match buildImageRows fileUrl (idx + 1) rest with
          | .error e => .error e
          | .ok rs =>
              .ok ({ image_file := url, image_name := some ("Image " ++ toString (idx + 1)),
                     status := "Pending", item_code := none, error_message := none } :: rs)

/-- Embedding of `quick_batch_upload` (lines 291-376): parse the images argument, build
the upload document, insert it (oracle `insertDoc` giving its name), run
`process_all_images`, and catch every exception into an error dictionary. -/
def quick_batch_upload (parsed : Except String ParsedImages)
    (fileUrl : Nat → Except String String) (insertDoc : Except String String)
    (o : Nat → ProcOutcome) (warehouse : String) (item_group : Option String)
    (valuation_rate : Option Int) : QuickResponse :=
  match parsed with
  | .error e => .fail e
  | .ok .notList => .fail "Images must be a list"
  | .ok (.list imgs) =>
      match buildImageRows fileUrl 0 imgs with
      | .error e => .fail e
      | .ok rows =>
          match insertDoc with
          | .error e => .fail e
          | .ok docName =>
              match process_all_images o
                  { name := docName, warehouse := some warehouse,
                    default_valuation_rate := valuation_rate, images := rows,
                    items_created := [], status := "Draft",
                    total_items_created := 0, failed_count := 0 } with
              | .error e => .fail e
              | .ok (_, r) =>
                  .ok { upload_name := docName, items_created := r.items_created,
                        failed := r.failed }

/-- Concrete upload document with an empty images table. -/
def emptyUploadDoc : UploadDoc :=
  { name := "SCU-0002", warehouse := some "Main", default_valuation_rate := none,
    images := [], items_created := [], status := "Draft",
    total_items_created := 0, failed_count := 0 }

/-! Section: Marketplace hustle: data model

`marketplace_hustle.py`.  The two SQL queries are modelled over in-memory
row lists (`HustleDb`): one row per `Material Request Item` joined with its
parent request, and one per `Task`.  `LIKE '%query%'` is modelled as
substring containment on the relevant column; wildcard characters inside
the query and collation case-folding are outside the embedding.
Side effects (notification comments, `frappe.db.set_value`,
`frappe.log_error`) are collected in an effect trace. -/

structure MarketItem where
  title : Option String
  price : Option String
  url : Option String
  marketplace : Option String
deriving Repr, DecidableEq

/-- A `Material Request Item` row joined with its parent
`Material Request` (the columns used by the query at lines 168-190). -/
structure MRRow where
  material_request : String
  docstatus : Int
  status : String
  item_code : String
  item_name : String
  description : String
deriving Repr, DecidableEq

/-- A `Task` row (the columns used by the query at lines 224-240). -/
structure TaskRow where
  name : String
  status : String
  subject : String
  description : String
deriving Repr, DecidableEq

structure HustleDb where
  material_requests : List MRRow
  tasks : List TaskRow
deriving Repr, DecidableEq

/-- Semantics of `column LIKE '%query%'`: the query occurs as a substring of the column. -/
def sqlLikeContains (s q : String) : Bool :=
  decide (q.toList <:+: s.toList)

/-- The WHERE clause of the Material Request query (lines 181-187):
submitted (`docstatus = 1`), status `Pending` or `Partially Ordered`, and
the pattern matches `item_name`, `description` or `item_code`. -/
def mrMatches (q : String) (r : MRRow) : Bool :=
  r.docstatus == 1 &&
  (r.status == "Pending" || r.status == "Partially Ordered") &&
  (sqlLikeContains r.item_name q || sqlLikeContains r.description q ||
   sqlLikeContains r.item_code q)

/-- The WHERE clause of the Task query (lines 233-237): status `Open`,
`Working` or `Pending Review`, and the pattern matches `subject` or
`description`. -/
def taskMatches (q : String) (r : TaskRow) : Bool :=
  (r.status == "Open" || r.status == "Working" || r.status == "Pending Review") &&
  (sqlLikeContains r.subject q || sqlLikeContains r.description q)

/-- One entry of the effect trace: a match-notification comment
(`create_match_notification`), a `frappe.db.set_value` write, or a
`frappe.log_error` call. -/
inductive Effect where
  | notification (reference_doctype reference_name match_type : String)
  | setValue (doctype name field value : String)
  | logged (msg : String)
deriving Repr, DecidableEq

/-- Embedding of `match_with_material_requests` (lines 154-207): query the matching
Material Request rows, create one notification per matching row, and
return whether any row matched. -/
def match_with_material_requests (db : HustleDb) (item : MarketItem) (q : String) :
    Bool × List Effect :=
  let rows := db.material_requests.filter (mrMatches q)
  if rows.isEmpty then (false, [])
  else (true, rows.map (fun r =>
    .notification "Material Request" r.material_request "material_request"))

/-- Embedding of `match_with_tasks` (lines 210-257): query the matching Task rows,
create one notification per matching row, and return whether any row
matched. -/
def match_with_tasks (db : HustleDb) (item : MarketItem) (q : String) :
    Bool × List Effect :=
  let rows := db.tasks.filter (taskMatches q)
  if rows.isEmpty then (false, [])
  else (true, rows.map (fun r => .notification "Task" r.name "task"))

/-- A `Saved Marketplace Search` record as fetched by `frappe.get_all`
(line 25-29). -/
structure SearchRec where
  name : String
  user : String
  search_query : String
  marketplace : String
  search_type : Option String
  last_checked : Option String
deriving Repr, DecidableEq

/-- Test `search.get("search_type") in ("material_request", "purchase_request")`
(line 105). -/
def searchTypeIsMR (st : Option String) : Bool :=
  st == some "material_request" || st == some "purchase_request"

/-- The per-item dispatch in the loop of `process_single_search`
(lines 104-112): Material Requests for the two request search types,
Tasks for every other (or missing) search type. -/
def matchItem (db : HustleDb) (s : SearchRec) (item : MarketItem) : Bool × List Effect :=
  if searchTypeIsMR s.search_type then
    match_with_material_requests db item s.search_query
  else
    match_with_tasks db item s.search_query

/-- Embedding of `fetch_marketplace_items` (lines 120-151): placeholder that returns the
empty list for every marketplace, query and last-checked timestamp. -/
def fetch_marketplace_items (marketplace : String) (search_query : String)
    (last_checked : Option String) : List MarketItem :=
  []

/-- The `for item in new_items` loop of `process_single_search`:
counts the items for which the dispatched matcher returned `True`. -/
def processItems (db : HustleDb) (s : SearchRec) : List MarketItem → Nat × List Effect
  | [] => (0, [])
  | item :: rest =>
      let m := matchItem db s item
      let r := processItems db s rest
      ((if m.1 then r.1 + 1 else r.1), m.2 ++ r.2)

/-- The dictionary returned by `process_single_search` (lines 114-117). -/
structure SearchRunResult where
  items_found : Nat
  matches_created : Nat
deriving Repr, DecidableEq

/-- Embedding of `process_single_search` (lines 82-117): fetch the new items for the
search and run the matching loop over them. -/
def process_single_search (db : HustleDb) (s : SearchRec) : SearchRunResult × List Effect :=
  let new_items := fetch_marketplace_items s.marketplace s.search_query s.last_checked
  let r := processItems db s new_items
  ({ items_found := new_items.length, matches_created := r.1 }, r.2)

/-- The `results` dictionary accumulated by `check_marketplace_searches`
(lines 31-36). -/
structure HustleResults where
  searches_processed : Nat
  items_found : Nat
  matches_created : Nat
  errors : List String
deriving Repr, DecidableEq

/-- The dictionary returned by `check_marketplace_searches` on its success
path (lines 67-71). -/
structure HustleResponse where
  success : Bool
  results : HustleResults
  message : String
deriving Repr, DecidableEq

/-- The error string built at line 61. -/
def hustleError (s : SearchRec) (e : String) : String :=
  "Error processing search " ++ s.name ++ ": " ++ e

/-- The `for search in searches` loop of `check_marketplace_searches`
(lines 38-63).  The outcome of `process_single_search` for each search is
an oracle (`runner`), an `Except.error` modelling an exception raised
while processing that search; such an exception is caught in the loop,
logged, and appended to `errors`, and the remaining searches are still
processed.  On success the loop increments the counters and writes the
`last_checked` and `results_found` values of that search. -/
def hustleLoop (runner : SearchRec → Except String (SearchRunResult × List Effect))
    (now : String) : List SearchRec → HustleResults × List Effect
  | [] => ({ searches_processed := 0, items_found := 0, matches_created := 0,
             errors := [] }, [])
  | s :: rest =>
      match runner s with
      | .ok (r, effs) =>
          let acc := hustleLoop runner now rest
          ({ searches_processed := acc.1.searches_processed + 1,
             items_found := r.items_found + acc.1.items_found,
             matches_created := r.matches_created + acc.1.matches_created,
             errors := acc.1.errors },
           effs ++
             (Effect.setValue "Saved Marketplace Search" s.name "last_checked" now ::
              Effect.setValue "Saved Marketplace Search" s.name "results_found"
                (toString r.items_found) :: acc.2))
      | .error e =>
          let acc := hustleLoop runner now rest
          ({ acc.1 with errors := hustleError s e :: acc.1.errors },
           Effect.logged (hustleError s e) :: acc.2)

/-- Embedding of `check_marketplace_searches` (lines 13-79) with the active searches
(the `frappe.get_all` result) given as input: run the loop and return the
success dictionary.  The outer `try/except` only catches failures of
`frappe.get_all` and `frappe.db.commit`, which are modelled as pure, so
the success path is always taken. -/
def check_marketplace_searches
    (runner : SearchRec → Except String (SearchRunResult × List Effect))
    (now : String) (searches : List SearchRec) : HustleResponse × List Effect :=
  let r := hustleLoop runner now searches
  ({ success := true, results := r.1,
     message := "Processed " ++ toString r.1.searches_processed ++ " searches, found "
       ++ toString r.1.items_found ++ " items, created "
       ++ toString r.1.matches_created ++ " matches" }, r.2)

/-- The runner that actually calls `process_single_search` (line 41),
which in the embedding is pure and never raises. -/
def realRunner (db : HustleDb) : SearchRec → Except String (SearchRunResult × List Effect) :=
  fun s => .ok (process_single_search db s)

/-- The effects one search contributes to the trace, in loop order. -/
def searchTrace (runner : SearchRec → Except String (SearchRunResult × List Effect))
    (now : String) (s : SearchRec) : List Effect :=
  match runner s with
  | .ok (r, effs) =>
      effs ++
        [Effect.setValue "Saved Marketplace Search" s.name "last_checked" now,
         Effect.setValue "Saved Marketplace Search" s.name "results_found"
           (toString r.items_found)]
  | .error e => [Effect.logged (hustleError s e)]

/-- The per-search error entry (if any) appended to `errors`. -/
def searchError (runner : SearchRec → Except String (SearchRunResult × List Effect))
    (s : SearchRec) : Option String :=
  match runner s with
  | .ok _ => none
  | .error e => some (hustleError s e)

/-- Concrete saved searches used to evaluate the hustle routine. -/
def sampleSearches : List SearchRec :=
  [{ name := "SMS-0001", user := "a@b.no", search_query := "pallet",
     marketplace := "FINN.no", search_type := some "material_request",
     last_checked := none },
   { name := "SMS-0002", user := "a@b.no", search_query := "seed",
     marketplace := "Facebook Marketplace", search_type := none,
     last_checked := some "2026-01-01 00:00:00" }]

/-- Concrete runner whose second search raises. -/
def sampleRunner : SearchRec → Except String (SearchRunResult × List Effect) :=
  fun s => if s.name = "SMS-0002" then .error "db gone" else
    .ok ({ items_found := 0, matches_created := 0 }, [])

/-- Concrete database rows used to evaluate the matchers. -/
def sampleHustleDb : HustleDb :=
  { material_requests :=
      [{ material_request := "MR-0001", docstatus := 1, status := "Pending",
         item_code := "PAL-001", item_name := "Euro pallet", description := "wooden pallet" },
       { material_request := "MR-0002", docstatus := 0, status := "Pending",
         item_code := "PAL-002", item_name := "Euro pallet", description := "draft request" }],
    tasks :=
      [{ name := "TASK-0001", status := "Open", subject := "Buy seed potatoes",
         description := "for the garden" },
       { name := "TASK-0002", status := "Completed", subject := "Buy seed potatoes",
         description := "done already" }] }

/-- Concrete marketplace item used to evaluate the matchers. -/
def sampleMarketItem : MarketItem :=
  { title := some "Paller gis bort", price := some "0", url := none,
    marketplace := some "FINN.no" }

/-! Section: Stubbed capabilities

`check_bruktdel_listing` (`tasks.py` lines 77-114) and
`orchestrate_pickup_route` (`mcp_server/server.py` lines 859-937). -/

/-- Embedding of `check_bruktdel_listing`: logs the attempt (oracle `logOutcome`, a
`some` modelling an exception raised inside the `try`) and returns 0 on
both the normal and the exception path. -/
def check_bruktdel_listing (search_query : String) (asset_code : Option String)
    (user : Option String) (logOutcome : Option String) : Nat :=
  match logOutcome with
  | some _ => 0
  | none => 0

/-- A `Marketplace Listing` document as read by `frappe.get_doc` inside
`orchestrate_pickup_route`. -/
structure ListingDoc where
  item_code : String
deriving Repr, DecidableEq

/-- One entry of `route_plan["listings"]` (lines 913-920); the still
unconfirmed `pickup_time` is always `None` and is omitted. -/
structure RouteEntry where
  listing_id : String
  item : String
  status : String
  seller_contacted : Bool
  suggested_message : String
deriving Repr, DecidableEq

/-- The `standard_messages` dictionary (lines 882-890). -/
def standardMessages : List (String × String) :=
  [("standard", "Hvor mye for hele bunken?"),
   ("storage", "jeg vil gjerne prøve dere ut, passer idag og er tilgangen 24/7"),
   ("free_goods_tomorrow", "Er disse forsatt ledig kan hente imørgen hvis det passer... 😃"),
   ("free_goods_available", "noen artikler igjen?😃"),
   ("free_goods_delivery", "Er det mulig levering til lyngdal"),
   ("free_goods_pallets", "Hvor funker dette ... Vil gjerne ha fleste paller som mulig 😃"),
   ("apology", "Hei. Beklager sent svar men det var mange.., det er hentet")]

/-- Lookup `standard_messages.get(message_type, standard_messages["standard"])`
(line 912). -/
def lookupMessage (message_type : String) : String :=
  match standardMessages.lookup message_type with
  | some m => m
  | none => "Hvor mye for hele bunken?"

/-- The fields of `route_plan` used by the claims. -/
structure RoutePlan where
  listings : List RouteEntry
  optimal_route : List RouteEntry
  date : String
  start_location : Option String
  total_distance : Nat
  estimated_time : Nat
  selected_message_type : String
deriving Repr, DecidableEq

inductive RouteResponse where
  | ok (plan : RoutePlan)
  | fail (error : String)
deriving Repr, DecidableEq

/-- The `for listing_id in listings` loop (lines 906-921): load each
listing (oracle `lookupDoc`; an exception aborts into the `except` branch)
and build its route entry in input order. -/
def buildEntries (lookupDoc : String → Except String ListingDoc) (message_type : String) :
    List String → Except String (List RouteEntry)
  | [] => .ok []
  | id :: rest =>
      match lookupDoc id with
      | .error e => .error e
      | .ok d =>
          match buildEntries lookupDoc message_type rest with
          | .error e => .error e
          | .ok es =>
              .ok ({ listing_id := id, item := d.item_code, status := "scheduled",
                     seller_contacted := true,
                     suggested_message := lookupMessage message_type } :: es)

/-- Embedding of `orchestrate_pickup_route` (lines 859-937): build the listing entries,
perform no route optimization (`route_plan["optimal_route"] =
route_plan["listings"]`, line 926), and catch exceptions into an error
dictionary. -/
def orchestrate_pickup_route (lookupDoc : String → Except String ListingDoc)
    (listings : List String) (start_location : Option String)
    (preferred_date : Option String) (message_type : String) (today : String) :
    RouteResponse :=
  match buildEntries lookupDoc message_type listings with
  | .error e => .fail e
  | .ok entries =>
      .ok { listings := entries, optimal_route := entries,
            date := preferred_date.getD today, start_location := start_location,
            total_distance := 0, estimated_time := 0,
            selected_message_type := message_type }

/-- Concrete listing store for the pickup-route witness. -/
def sampleListingStore : String → Except String ListingDoc :=
  fun id => if id = "ML-0001" then .ok { item_code := "ITEM-A" }
    else if id = "ML-0002" then .ok { item_code := "ITEM-B" }
    else .error "not found"

/-! Section: Weather: frost risk

`get_frost_risk` (`weather_yr.py` lines 180-215).  The 7-day forecast
fetch is an oracle; daily minimum temperatures are modelled as rationals
(they are only compared against the exact constants 0 and -5, never
computed with). -/

/-- One aggregated forecast day as consumed by `get_frost_risk`: its date
and `temperature.min` (which is `None` when the day had no samples). -/
structure ForecastDay where
  date : String
  temp_min : Option ℚ
deriving Repr, DecidableEq

/-- One entry of the `frost_days` list (lines 200-204). -/
structure FrostDay where
  date : String
  min_temperature : ℚ
  severity : String
deriving Repr, DecidableEq

/-- The dictionary returned on the success path (lines 206-212), without
the location passthrough. -/
structure FrostAssessment where
  success : Bool
  frost_risk : Bool
  frost_days : List FrostDay
  message : String
deriving Repr, DecidableEq

/-- Result of `get_frost_risk`: the assessment, or the failed forecast
response passed through unchanged (line 194). -/
inductive FrostResponse where
  | ok (a : FrostAssessment)
  | passthrough (error : String)
deriving Repr, DecidableEq

/-- Outcome of `get_weather_forecast(latitude, longitude, days=7)`. -/
inductive ForecastFetch where
  | ok (days : List ForecastDay)
  | fail (error : String)
deriving Repr, DecidableEq

/-- The body of the `for day in forecast` loop (lines 197-204): a day
contributes a frost entry exactly when its minimum temperature is defined
and at most 0, with severity `Hard Frost` when it is at most -5 and
`Light Frost` otherwise. -/
def frostDayOf (d : ForecastDay) : Option FrostDay :=
  match d.temp_min with
  | some t =>
      if t ≤ 0 then
        some { date := d.date, min_temperature := t,
               severity := if t ≤ -5 then "Hard Frost" else "Light Frost" }
      else none
  | none => none

/-- Embedding of `get_frost_risk` (lines 180-215): pass a failed fetch through,
otherwise collect the frost days and report risk iff there is at least
one. -/
def get_frost_risk (fetch : ForecastFetch) : FrostResponse :=
  match fetch with
  | .fail e => .passthrough e
  | .ok days =>
      let fd := days.filterMap frostDayOf
      .ok { success := true,
            frost_risk := decide (0 < fd.length),
            frost_days := fd,
            message :=
              if 0 < fd.length then
                "Frost expected on " ++ toString fd.length ++ " days"
              else "No frost expected in the next 7 days" }

/-- Concrete forecast used to evaluate the frost assessment. -/
def sampleForecast : List ForecastDay :=
  [{ date := "2026-10-13", temp_min := some 3 },
   { date := "2026-10-14", temp_min := some 0 },
   { date := "2026-10-15", temp_min := some (-7) },
   { date := "2026-10-16", temp_min := none }]

theorem processRows_rows (doc : UploadDoc) (o : Nat → ProcOutcome) :
    ∀ (rs : List ImageRow) (idx : Nat),
      (processRows doc o idx rs).1 =
        ((List.range' idx rs.length).zip rs).map (rowResult doc o) := by
  intro rs
  induction rs with
  | nil => intro idx; simp [processRows]
  | cons r rs ih =>
      intro idx
      simp [processRows, List.range', ih (idx + 1), rowResult]

theorem processRows_success_count (doc : UploadDoc) (o : Nat → ProcOutcome) :
    ∀ (rs : List ImageRow) (idx : Nat),
      (processRows doc o idx rs).2.2.1 = okCount o idx rs.length := by
  intro rs
  induction rs with
  | nil => intro idx; simp [processRows, okCount]
  | cons r rs ih =>
      intro idx
      simp only [processRows, okCount, List.length_cons, List.range',
        List.countP_cons, ih (idx + 1)]
      by_cases h : (o idx).isOk = true <;> simp [okCount, h]

theorem processRows_failed_count (doc : UploadDoc) (o : Nat → ProcOutcome) :
    ∀ (rs : List ImageRow) (idx : Nat),
      (processRows doc o idx rs).2.2.2 = failCount o idx rs.length := by
  intro rs
  induction rs with
  | nil => intro idx; simp [processRows, failCount]
  | cons r rs ih =>
      intro idx
      simp only [processRows, failCount, List.length_cons, List.range',
        List.countP_cons, ih (idx + 1)]
      by_cases h : (o idx).isOk = true <;> simp [failCount, h]

theorem okCount_add_failCount (o : Nat → ProcOutcome) (idx n : Nat) :
    okCount o idx n + failCount o idx n = n := by
  have h : (List.range' idx n).length =
      (List.range' idx n).countP (fun j => (o j).isOk) +
      (List.range' idx n).countP (fun j => !(o j).isOk) := by
    simpa using List.length_eq_countP_add_countP (l := List.range' idx n)
      (fun j => (o j).isOk)
  simp only [okCount, failCount, List.length_range'] at *
  omega

theorem processRows_rows_length (doc : UploadDoc) (o : Nat → ProcOutcome)
    (rs : List ImageRow) (idx : Nat) :
    (processRows doc o idx rs).1.length = rs.length := by
  rw [processRows_rows]
  simp

theorem process_all_images_ok (o : Nat → ProcOutcome) (doc : UploadDoc)
    (hne : doc.images ≠ []) :
    process_all_images o doc = .ok (runUpload o doc) := by
  cases hi : doc.images with
  | nil => exact absurd hi hne
  | cons im ims => rw [process_all_images, hi]

theorem runUpload_images (o : Nat → ProcOutcome) (doc : UploadDoc) :
    (runUpload o doc).1.images =
      ((List.range' 0 doc.images.length).zip doc.images).map (rowResult doc o) := by
  simp [runUpload, processRows_rows]

theorem rowResult_status (doc : UploadDoc) (o : Nat → ProcOutcome) (p : Nat × ImageRow) :
    (rowResult doc o p).status = if (o p.1).isOk then "Completed" else "Failed" := by
  cases h : o p.1 <;> simp [rowResult, rowStep, ProcOutcome.isOk, h]

theorem rowResult_item_code (doc : UploadDoc) (o : Nat → ProcOutcome) (p : Nat × ImageRow)
    (h : (o p.1).isOk = true) : (rowResult doc o p).item_code.isSome := by
  cases ho : o p.1 <;> simp [ProcOutcome.isOk, ho] at h ⊢ <;>
    simp [rowResult, rowStep, ho]

theorem rowResult_error_message (doc : UploadDoc) (o : Nat → ProcOutcome) (p : Nat × ImageRow)
    (h : (o p.1).isOk = false) : (rowResult doc o p).error_message.isSome := by
  cases ho : o p.1 <;> simp [ProcOutcome.isOk, ho] at h ⊢ <;>
    simp [rowResult, rowStep, ho]

theorem countP_fst_zip_range' (q : Nat → Bool) :
    ∀ (rs : List ImageRow) (idx : Nat),
      ((List.range' idx rs.length).zip rs).countP (fun p => q p.1)
        = (List.range' idx rs.length).countP q := by
  intro rs
  induction rs with
  | nil => intro idx; simp
  | cons r rs ih =>
      intro idx
      simp [List.range', List.countP_cons, ih (idx + 1)]

theorem processRows_created_length (doc : UploadDoc) (o : Nat → ProcOutcome) :
    ∀ (rs : List ImageRow) (idx : Nat),
      (processRows doc o idx rs).2.1.length = (processRows doc o idx rs).2.2.1 := by
  intro rs
  induction rs with
  | nil => intro idx; simp [processRows]
  | cons r rs ih =>
      intro idx
      cases h : o idx <;>
        simp [processRows, rowStep, ProcOutcome.isOk, h, ih (idx + 1)]

theorem processRows_getElem (doc : UploadDoc) (o : Nat → ProcOutcome) :
    ∀ (rs : List ImageRow) (idx j : Nat) (orig : ImageRow),
      rs[j]? = some orig →
      (processRows doc o idx rs).1[j]? = some (rowResult doc o (idx + j, orig)) := by
  intro rs
  induction rs with
  | nil => intro idx j orig h; simp at h
  | cons r rs ih =>
      intro idx j orig h
      cases j with
      | zero =>
          simp only [List.getElem?_cons_zero, Option.some.injEq] at h
          subst h
          simp [processRows, rowResult]
      | succ j =>
          simp only [List.getElem?_cons_succ] at h
          have hrec := ih (idx + 1) j orig h
          have harith : idx + 1 + j = idx + (j + 1) := by omega
          rw [harith] at hrec
          simpa [processRows] using hrec

/-- C1: for every Stock Camera Upload document with a non-empty images list,
`process_all_images` performs partial-failure bookkeeping: afterwards
`total_items_created` is the number of successfully processed images,
`failed_count` the number of failed ones, the two sum to the number of
images, the final status is `Completed` iff nothing failed, `Failed` iff
nothing succeeded and something failed, and `Partially Completed`
otherwise, and the returned dictionary reports `total_images`,
`items_created` and `failed` equal to these quantities. -/
theorem camera_upload_partial_failure_bookkeeping
    (doc : UploadDoc) (o : Nat → ProcOutcome) (hne : doc.images ≠ []) :
    process_all_images o doc = .ok (runUpload o doc) ∧
    (runUpload o doc).1.total_items_created = okCount o 0 doc.images.length ∧
    (runUpload o doc).1.failed_count = failCount o 0 doc.images.length ∧
    (runUpload o doc).1.total_items_created + (runUpload o doc).1.failed_count
      = doc.images.length ∧
    ((runUpload o doc).1.status = "Completed" ↔ (runUpload o doc).1.failed_count = 0) ∧
    ((runUpload o doc).1.status = "Failed" ↔
      (runUpload o doc).1.total_items_created = 0 ∧ (runUpload o doc).1.failed_count ≠ 0) ∧
    ((runUpload o doc).1.status = "Partially Completed" ↔
      (runUpload o doc).1.total_items_created ≠ 0 ∧ (runUpload o doc).1.failed_count ≠ 0) ∧
    (runUpload o doc).2.success = true ∧
    (runUpload o doc).2.total_images = doc.images.length ∧
    (runUpload o doc).2.items_created = (runUpload o doc).1.total_items_created ∧
    (runUpload o doc).2.failed = (runUpload o doc).1.failed_count := by
  refine ⟨?_, ?_, ?_, ?_, ?_, ?_, ?_, rfl, ?_, rfl, rfl⟩
  · cases hi : doc.images with
    | nil => exact absurd hi hne
    | cons im ims => rw [process_all_images, hi]
  · simp [runUpload, processRows_success_count]
  · simp [runUpload, processRows_failed_count]
  · simp only [runUpload, processRows_success_count, processRows_failed_count]
    exact okCount_add_failCount o 0 doc.images.length
  · simp only [runUpload, processRows_success_count, processRows_failed_count]
    by_cases hf : failCount o 0 doc.images.length = 0 <;>
      by_cases hs : okCount o 0 doc.images.length = 0 <;> simp [hf, hs]
  · simp only [runUpload, processRows_success_count, processRows_failed_count]
    by_cases hf : failCount o 0 doc.images.length = 0 <;>
      by_cases hs : okCount o 0 doc.images.length = 0 <;> simp [hf, hs]
  · simp only [runUpload, processRows_success_count, processRows_failed_count]
    by_cases hf : failCount o 0 doc.images.length = 0 <;>
      by_cases hs : okCount o 0 doc.images.length = 0 <;> simp [hf, hs]
  · simp [runUpload, processRows_rows_length]

/-- Closed witness for `camera_upload_partial_failure_bookkeeping`: a
two-image document whose first image succeeds and second fails ends
`Partially Completed` with one created item and one failure. -/
theorem camera_upload_partial_failure_bookkeeping_witness :
    process_all_images sampleOutcome sampleUploadDoc
      = .ok (runUpload sampleOutcome sampleUploadDoc) ∧
    (runUpload sampleOutcome sampleUploadDoc).1.total_items_created = 1 ∧
    (runUpload sampleOutcome sampleUploadDoc).1.failed_count = 1 ∧
    (runUpload sampleOutcome sampleUploadDoc).1.status = "Partially Completed" ∧
    (runUpload sampleOutcome sampleUploadDoc).2.total_images = 2 := by
  have h := camera_upload_partial_failure_bookkeeping sampleUploadDoc sampleOutcome
    (by decide)
  exact ⟨h.1, by decide, by decide, by decide, by decide⟩

/-- C5: per-row status tracking in the batch camera-upload pipeline: after
`process_all_images`, every image row is `Completed` or `Failed`; every
`Completed` row has its `item_code` set and the `Completed` rows contribute
exactly one `items_created` entry each (`items_created` grows by exactly
the number of `Completed` rows, which also equals `total_items_created`);
every `Failed` row has its `error_message` set; and the `Completed` /
`Failed` rows partition the images, matching the success and failure
counts. -/
theorem camera_upload_row_tracking
    (doc : UploadDoc) (o : Nat → ProcOutcome) (hne : doc.images ≠ []) :
    process_all_images o doc = .ok (runUpload o doc) ∧
    (runUpload o doc).1.images.length = doc.images.length ∧
    (∀ row ∈ (runUpload o doc).1.images,
      row.status = "Completed" ∨ row.status = "Failed") ∧
    (∀ row ∈ (runUpload o doc).1.images,
      row.status = "Completed" → row.item_code.isSome) ∧
    (∀ row ∈ (runUpload o doc).1.images,
      row.status = "Failed" → row.error_message.isSome) ∧
    ((runUpload o doc).1.images.filter (fun r => r.status == "Completed")).length
      = (runUpload o doc).1.total_items_created ∧
    ((runUpload o doc).1.images.filter (fun r => r.status == "Failed")).length
      = (runUpload o doc).1.failed_count ∧
    ((runUpload o doc).1.images.filter (fun r => r.status == "Completed")).length
      + ((runUpload o doc).1.images.filter (fun r => r.status == "Failed")).length
      = (runUpload o doc).1.images.length ∧
    (runUpload o doc).1.items_created.length
      = doc.items_created.length + (runUpload o doc).1.total_items_created := by
  have himg := runUpload_images o doc
  have hlen : (runUpload o doc).1.images.length = doc.images.length := by
    simp [runUpload, processRows_rows_length]
  have hfC :
      ((runUpload o doc).1.images.filter (fun r => r.status == "Completed")).length
        = okCount o 0 doc.images.length := by
    rw [himg, ← List.countP_eq_length_filter, List.countP_map]
    have hcongr :
        ((List.range' 0 doc.images.length).zip doc.images).countP
            ((fun r => r.status == "Completed") ∘ rowResult doc o)
          = ((List.range' 0 doc.images.length).zip doc.images).countP
              (fun p => (o p.1).isOk) := by
      apply List.countP_congr
      intro p _
      simp only [Function.comp_apply, rowResult_status]
      by_cases h : (o p.1).isOk = true <;> simp [h]
    rw [hcongr]
    have := countP_fst_zip_range' (fun j => (o j).isOk) doc.images 0
    simpa [okCount] using this
  have hfF :
      ((runUpload o doc).1.images.filter (fun r => r.status == "Failed")).length
        = failCount o 0 doc.images.length := by
    rw [himg, ← List.countP_eq_length_filter, List.countP_map]
    have hcongr :
        ((List.range' 0 doc.images.length).zip doc.images).countP
            ((fun r => r.status == "Failed") ∘ rowResult doc o)
          = ((List.range' 0 doc.images.length).zip doc.images).countP
              (fun p => !(o p.1).isOk) := by
      apply List.countP_congr
      intro p _
      simp only [Function.comp_apply, rowResult_status]
      by_cases h : (o p.1).isOk = true <;> simp [h]
    rw [hcongr]
    have := countP_fst_zip_range' (fun j => !(o j).isOk) doc.images 0
    simpa [failCount] using this
  refine ⟨process_all_images_ok o doc hne, hlen, ?_, ?_, ?_, ?_, ?_, ?_, ?_⟩
  · intro row hrow
    rw [himg] at hrow
    obtain ⟨p, _, rfl⟩ := List.mem_map.mp hrow
    rw [rowResult_status]
    by_cases h : (o p.1).isOk = true <;> simp [h]
  · intro row hrow hC
    rw [himg] at hrow
    obtain ⟨p, _, rfl⟩ := List.mem_map.mp hrow
    rw [rowResult_status] at hC
    by_cases h : (o p.1).isOk = true
    · exact rowResult_item_code doc o p h
    · simp [h] at hC
  · intro row hrow hF
    rw [himg] at hrow
    obtain ⟨p, _, rfl⟩ := List.mem_map.mp hrow
    rw [rowResult_status] at hF
    by_cases h : (o p.1).isOk = true
    · simp [h] at hF
    · exact rowResult_error_message doc o p (by simpa using h)
  · rw [hfC]
    simp [runUpload, processRows_success_count]
  · rw [hfF]
    simp [runUpload, processRows_failed_count]
  · rw [hfC, hfF, hlen]
    exact okCount_add_failCount o 0 doc.images.length
  · simp [runUpload, List.length_append, processRows_created_length,
      processRows_success_count]

/-- Closed witness for `camera_upload_row_tracking` on the sample document:
one completed row with an item code, one failed row with an error message,
and one created item. -/
theorem camera_upload_row_tracking_witness :
    ((runUpload sampleOutcome sampleUploadDoc).1.images.filter
      (fun r => r.status == "Completed")).length = 1 ∧
    ((runUpload sampleOutcome sampleUploadDoc).1.images.filter
      (fun r => r.status == "Failed")).length = 1 ∧
    (runUpload sampleOutcome sampleUploadDoc).1.items_created.length = 1 := by
  have h := camera_upload_row_tracking sampleUploadDoc sampleOutcome (by decide)
  refine ⟨?_, ?_, ?_⟩
  · rw [h.2.2.2.2.2.1]; decide
  · rw [h.2.2.2.2.2.2.1]; decide
  · rw [h.2.2.2.2.2.2.2.2]; decide

/-- C6: an exception raised while processing one image inside the loop of
`process_all_images` is caught: the failing row is marked `Failed` with
`error_message` the exception text, the failure count counts it, every
other image is still processed by the loop body, and `process_all_images`
returns normally. -/
theorem camera_upload_exception_handling
    (doc : UploadDoc) (o : Nat → ProcOutcome) (idx : Nat) (msg : String)
    (hexn : o idx = .exn msg) (hidx : idx < doc.images.length) :
    process_all_images o doc = .ok (runUpload o doc) ∧
    (runUpload o doc).1.images.length = doc.images.length ∧
    (∀ orig, doc.images[idx]? = some orig →
      (runUpload o doc).1.images[idx]? =
        some { orig with status := "Failed", error_message := some msg }) ∧
    (runUpload o doc).1.failed_count = failCount o 0 doc.images.length ∧
    0 < (runUpload o doc).1.failed_count ∧
    (∀ j orig, doc.images[j]? = some orig →
      (runUpload o doc).1.images[j]? = some (rowResult doc o (j, orig))) := by
  have hne : doc.images ≠ [] := by
    intro h
    rw [h] at hidx
    simp at hidx
  have hget : ∀ j orig, doc.images[j]? = some orig →
      (runUpload o doc).1.images[j]? = some (rowResult doc o (j, orig)) := by
    intro j orig h
    have := processRows_getElem doc o doc.images 0 j orig h
    simpa [runUpload] using this
  refine ⟨process_all_images_ok o doc hne, ?_, ?_, ?_, ?_, hget⟩
  · simp [runUpload, processRows_rows_length]
  · intro orig horig
    have := hget idx orig horig
    rw [this]
    simp [rowResult, rowStep, hexn]
  · simp [runUpload, processRows_failed_count]
  · have hfc : (runUpload o doc).1.failed_count = failCount o 0 doc.images.length := by
      simp [runUpload, processRows_failed_count]
    rw [hfc, failCount]
    rw [List.countP_pos_iff]
    refine ⟨idx, ?_, ?_⟩
    · rw [List.mem_range'_1]
      omega
    · simp [ProcOutcome.isOk, hexn]

/-- Closed witness for `camera_upload_exception_handling`: in the sample
run the second image raises `"boom"`, ends `Failed` with that message, and
is counted as the one failure. -/
theorem camera_upload_exception_handling_witness :
    (runUpload sampleOutcome sampleUploadDoc).1.images[1]? =
      some { image_file := "/files/b.png", image_name := some "B",
             status := "Failed", item_code := none,
             error_message := some "boom" } ∧
    0 < (runUpload sampleOutcome sampleUploadDoc).1.failed_count := by
  have h := camera_upload_exception_handling sampleUploadDoc sampleOutcome 1 "boom"
    (by decide) (by decide)
  refine ⟨?_, h.2.2.2.2.1⟩
  have := h.2.2.1 ⟨"/files/b.png", some "B", "Pending", none, none⟩ (by decide)
  simpa using this

theorem mwmr_parts (db : HustleDb) (item : MarketItem) (q : String) :
    match_with_material_requests db item q =
      (!(db.material_requests.filter (mrMatches q)).isEmpty,
       (db.material_requests.filter (mrMatches q)).map (fun r =>
         .notification "Material Request" r.material_request "material_request")) := by
  simp only [match_with_material_requests]
  by_cases h : (db.material_requests.filter (mrMatches q)).isEmpty
  · rw [List.isEmpty_iff] at h
    simp [h]
  · simp [h]

theorem mwt_parts (db : HustleDb) (item : MarketItem) (q : String) :
    match_with_tasks db item q =
      (!(db.tasks.filter (taskMatches q)).isEmpty,
       (db.tasks.filter (taskMatches q)).map (fun r =>
         .notification "Task" r.name "task")) := by
  simp only [match_with_tasks]
  by_cases h : (db.tasks.filter (taskMatches q)).isEmpty
  · rw [List.isEmpty_iff] at h
    simp [h]
  · simp [h]

theorem mrMatches_iff (q : String) (r : MRRow) :
    mrMatches q r = true ↔
      r.docstatus = 1 ∧
      (r.status = "Pending" ∨ r.status = "Partially Ordered") ∧
      (sqlLikeContains r.item_name q = true ∨ sqlLikeContains r.description q = true ∨
       sqlLikeContains r.item_code q = true) := by
  simp only [mrMatches, Bool.and_eq_true, Bool.or_eq_true, beq_iff_eq, decide_eq_true_eq]
  tauto

theorem taskMatches_iff (q : String) (r : TaskRow) :
    taskMatches q r = true ↔
      (r.status = "Open" ∨ r.status = "Working" ∨ r.status = "Pending Review") ∧
      (sqlLikeContains r.subject q = true ∨ sqlLikeContains r.description q = true) := by
  simp only [taskMatches, Bool.and_eq_true, Bool.or_eq_true, beq_iff_eq, decide_eq_true_eq]
  tauto

/-- C2: marketplace matching is substring matching (`LIKE '%query%'`):
`match_with_material_requests` returns `True` exactly when some submitted
Material Request in status `Pending` or `Partially Ordered` has
`item_name`, `description` or `item_code` containing the query, and it
creates one notification per matching request (fan-out); `match_with_tasks`
returns `True` exactly when some Task in status `Open`, `Working` or
`Pending Review` has `subject` or `description` containing the query, with
one notification per matching task; and the loop of
`process_single_search` dispatches an item to the Material Request matcher
exactly when the search type is `material_request` or `purchase_request`,
and to the Task matcher for every other (or missing) search type. -/
theorem marketplace_like_matching
    (db : HustleDb) (item : MarketItem) (q : String) (s : SearchRec) :
    ((match_with_material_requests db item q).1 = true ↔
      ∃ r ∈ db.material_requests, r.docstatus = 1 ∧
        (r.status = "Pending" ∨ r.status = "Partially Ordered") ∧
        (sqlLikeContains r.item_name q = true ∨ sqlLikeContains r.description q = true ∨
         sqlLikeContains r.item_code q = true)) ∧
    (match_with_material_requests db item q).2 =
      (db.material_requests.filter (mrMatches q)).map (fun r =>
        .notification "Material Request" r.material_request "material_request") ∧
    ((match_with_tasks db item q).1 = true ↔
      ∃ r ∈ db.tasks,
        (r.status = "Open" ∨ r.status = "Working" ∨ r.status = "Pending Review") ∧
        (sqlLikeContains r.subject q = true ∨ sqlLikeContains r.description q = true)) ∧
    (match_with_tasks db item q).2 =
      (db.tasks.filter (taskMatches q)).map (fun r => .notification "Task" r.name "task") ∧
    (matchItem db s item =
      if s.search_type = some "material_request" ∨ s.search_type = some "purchase_request"
      then match_with_material_requests db item s.search_query
      else match_with_tasks db item s.search_query) := by
  refine ⟨?_, ?_, ?_, ?_, ?_⟩
  · rw [mwmr_parts]
    simp only [Bool.not_eq_eq_eq_not, Bool.not_true, ← List.isEmpty_iff]
    constructor
    · intro h
      have hne : db.material_requests.filter (mrMatches q) ≠ [] := by
        intro hnil
        rw [← List.isEmpty_iff] at hnil
        simp [hnil] at h
      obtain ⟨r, hr⟩ := List.exists_mem_of_ne_nil _ hne
      have := List.mem_filter.mp hr
      exact ⟨r, this.1, (mrMatches_iff q r).mp this.2⟩
    · rintro ⟨r, hr, hp⟩
      have : r ∈ db.material_requests.filter (mrMatches q) :=
        List.mem_filter.mpr ⟨hr, (mrMatches_iff q r).mpr hp⟩
      have hne := List.ne_nil_of_mem this
      simp [List.isEmpty_iff, hne]
  · rw [mwmr_parts]
  · rw [mwt_parts]
    simp only [Bool.not_eq_eq_eq_not, Bool.not_true, ← List.isEmpty_iff]
    constructor
    · intro h
      have hne : db.tasks.filter (taskMatches q) ≠ [] := by
        intro hnil
        rw [← List.isEmpty_iff] at hnil
        simp [hnil] at h
      obtain ⟨r, hr⟩ := List.exists_mem_of_ne_nil _ hne
      have := List.mem_filter.mp hr
      exact ⟨r, this.1, (taskMatches_iff q r).mp this.2⟩
    · rintro ⟨r, hr, hp⟩
      have : r ∈ db.tasks.filter (taskMatches q) :=
        List.mem_filter.mpr ⟨hr, (taskMatches_iff q r).mpr hp⟩
      have hne := List.ne_nil_of_mem this
      simp [List.isEmpty_iff, hne]
  · rw [mwt_parts]
  · by_cases h : s.search_type = some "material_request" ∨ s.search_type = some "purchase_request"
    · rw [if_pos h]
      rcases h with h | h <;> simp [matchItem, searchTypeIsMR, h]
    · rw [if_neg h]
      push_neg at h
      simp [matchItem, searchTypeIsMR, beq_iff_eq, h.1, h.2]

/-- Closed witness for `marketplace_like_matching`: on the sample rows the
query `"pallet"` matches the single submitted pending Material Request and
creates its notification, and the query `"seed"` matches the single open
Task. -/
theorem marketplace_like_matching_witness :
    (match_with_material_requests sampleHustleDb sampleMarketItem "pallet").1 = true ∧
    (match_with_material_requests sampleHustleDb sampleMarketItem "pallet").2 =
      [.notification "Material Request" "MR-0001" "material_request"] ∧
    (match_with_tasks sampleHustleDb sampleMarketItem "seed").1 = true := by
  have h1 := marketplace_like_matching sampleHustleDb sampleMarketItem "pallet"
    { name := "SMS-0001", user := "a@b.no", search_query := "pallet",
      marketplace := "FINN.no", search_type := some "material_request",
      last_checked := none }
  have h2 := marketplace_like_matching sampleHustleDb sampleMarketItem "seed"
    { name := "SMS-0002", user := "a@b.no", search_query := "seed",
      marketplace := "FINN.no", search_type := none, last_checked := none }
  refine ⟨?_, ?_, ?_⟩
  · refine h1.1.mpr ⟨sampleHustleDb.material_requests[0], by decide, by decide, by decide, ?_⟩
    left
    decide
  · rw [h1.2.1]
    decide
  · refine h2.2.2.1.mpr ⟨sampleHustleDb.tasks[0], by decide, by decide, ?_⟩
    left
    decide

theorem hustleLoop_processed
    (runner : SearchRec → Except String (SearchRunResult × List Effect)) (now : String) :
    ∀ l : List SearchRec,
      (hustleLoop runner now l).1.searches_processed
        = l.countP (fun s => (runner s).isOk) := by
  intro l
  induction l with
  | nil => simp [hustleLoop]
  | cons s rest ih =>
      cases h : runner s <;>
        simp [hustleLoop, h, List.countP_cons, ih, Except.isOk, Except.toBool]

theorem hustleLoop_errors
    (runner : SearchRec → Except String (SearchRunResult × List Effect)) (now : String) :
    ∀ l : List SearchRec,
      (hustleLoop runner now l).1.errors = l.filterMap (searchError runner) := by
  intro l
  induction l with
  | nil => simp [hustleLoop]
  | cons s rest ih =>
      cases h : runner s <;> simp [hustleLoop, h, ih, searchError]

theorem hustleLoop_trace
    (runner : SearchRec → Except String (SearchRunResult × List Effect)) (now : String) :
    ∀ l : List SearchRec,
      (hustleLoop runner now l).2 = l.flatMap (searchTrace runner now) := by
  intro l
  induction l with
  | nil => simp [hustleLoop]
  | cons s rest ih =>
      cases h : runner s <;> simp [hustleLoop, h, ih, searchTrace]

theorem hustleLoop_processed_add_errors
    (runner : SearchRec → Except String (SearchRunResult × List Effect)) (now : String) :
    ∀ l : List SearchRec,
      (hustleLoop runner now l).1.searches_processed
        + (hustleLoop runner now l).1.errors.length = l.length := by
  intro l
  induction l with
  | nil => simp [hustleLoop]
  | cons s rest ih =>
      cases h : runner s <;> simp [hustleLoop, h] <;> omega

/-- C3: an exception raised while processing one search in
`check_marketplace_searches` is handled only by catch-and-log: the error
is logged and appended to the `errors` list (in loop order), every
remaining search is still processed (each non-raising search is counted
and receives its `last_checked` update no matter which other searches
raised), `searches_processed` counts exactly the searches that completed
without error, and the routine still returns a dictionary with
`success: True`. -/
theorem hustle_catch_and_log
    (runner : SearchRec → Except String (SearchRunResult × List Effect))
    (now : String) (searches : List SearchRec) :
    (check_marketplace_searches runner now searches).1.success = true ∧
    (check_marketplace_searches runner now searches).1.results.errors =
      searches.filterMap (searchError runner) ∧
    (check_marketplace_searches runner now searches).1.results.searches_processed =
      searches.countP (fun s => (runner s).isOk) ∧
    (check_marketplace_searches runner now searches).1.results.searches_processed +
      (check_marketplace_searches runner now searches).1.results.errors.length
      = searches.length ∧
    (∀ s ∈ searches, ∀ e, runner s = .error e →
      Effect.logged (hustleError s e) ∈ (check_marketplace_searches runner now searches).2 ∧
      hustleError s e ∈ (check_marketplace_searches runner now searches).1.results.errors) ∧
    (∀ s ∈ searches, (runner s).isOk = true →
      Effect.setValue "Saved Marketplace Search" s.name "last_checked" now
        ∈ (check_marketplace_searches runner now searches).2) := by
  refine ⟨rfl, ?_, ?_, ?_, ?_, ?_⟩
  · exact hustleLoop_errors runner now searches
  · exact hustleLoop_processed runner now searches
  · exact hustleLoop_processed_add_errors runner now searches
  · intro s hs e he
    constructor
    · show _ ∈ (hustleLoop runner now searches).2
      rw [hustleLoop_trace]
      rw [List.mem_flatMap]
      exact ⟨s, hs, by simp [searchTrace, he]⟩
    · show _ ∈ (hustleLoop runner now searches).1.errors
      rw [hustleLoop_errors]
      rw [List.mem_filterMap]
      exact ⟨s, hs, by simp [searchError, he]⟩
  · intro s hs hok
    show _ ∈ (hustleLoop runner now searches).2
    rw [hustleLoop_trace]
    rw [List.mem_flatMap]
    refine ⟨s, hs, ?_⟩
    cases h : runner s with
    | error e => rw [h] at hok; simp [Except.isOk, Except.toBool] at hok
    | ok v => simp [searchTrace, h]

/-- Closed witness for `hustle_catch_and_log`: with the sample runner the
second search raises `"db gone"`; its error is recorded, the first search
is still counted and updated, and the response reports success. -/
theorem hustle_catch_and_log_witness :
    (check_marketplace_searches sampleRunner "2026-10-12 08:00:00" sampleSearches).1.success
      = true ∧
    (check_marketplace_searches sampleRunner "2026-10-12 08:00:00" sampleSearches).1.results.errors
      = ["Error processing search SMS-0002: db gone"] ∧
    (check_marketplace_searches sampleRunner "2026-10-12 08:00:00"
      sampleSearches).1.results.searches_processed = 1 ∧
    Effect.setValue "Saved Marketplace Search" "SMS-0001" "last_checked" "2026-10-12 08:00:00"
      ∈ (check_marketplace_searches sampleRunner "2026-10-12 08:00:00" sampleSearches).2 := by
  have h := hustle_catch_and_log sampleRunner "2026-10-12 08:00:00" sampleSearches
  refine ⟨h.1, ?_, ?_, ?_⟩
  · rw [h.2.1]; decide
  · rw [h.2.2.1]; decide
  · have := h.2.2.2.2.2 sampleSearches[0] (by decide) (by decide)
    simpa using this

theorem hustleLoop_real (db : HustleDb) (now : String) :
    ∀ l : List SearchRec,
      hustleLoop (realRunner db) now l =
        ({ searches_processed := l.length, items_found := 0, matches_created := 0,
           errors := [] },
         l.flatMap (fun s =>
           [Effect.setValue "Saved Marketplace Search" s.name "last_checked" now,
            Effect.setValue "Saved Marketplace Search" s.name "results_found" "0"])) := by
  intro l
  induction l with
  | nil => simp [hustleLoop]
  | cons s rest ih =>
      simp [hustleLoop, realRunner, process_single_search, fetch_marketplace_items,
        processItems, ih]
      rfl

/-- C7: because `fetch_marketplace_items` is a stub returning the empty
list, `process_single_search` reports 0 items found and 0 matches created
(with no notifications) for every saved search, and every run of
`check_marketplace_searches` with the real per-search processing returns
success with `items_found` 0 and `matches_created` 0 while still writing
each search's `last_checked` timestamp and its `results_found` field
(to 0). -/
theorem hustle_stub_zero_results (db : HustleDb) (s : SearchRec) (now : String)
    (searches : List SearchRec) :
    process_single_search db s = ({ items_found := 0, matches_created := 0 }, []) ∧
    (check_marketplace_searches (realRunner db) now searches).1.success = true ∧
    (check_marketplace_searches (realRunner db) now searches).1.results.items_found = 0 ∧
    (check_marketplace_searches (realRunner db) now searches).1.results.matches_created
      = 0 ∧
    (check_marketplace_searches (realRunner db) now searches).1.results.searches_processed
      = searches.length ∧
    (check_marketplace_searches (realRunner db) now searches).2 =
      searches.flatMap (fun s =>
        [Effect.setValue "Saved Marketplace Search" s.name "last_checked" now,
         Effect.setValue "Saved Marketplace Search" s.name "results_found" "0"]) := by
  have h := hustleLoop_real db now searches
  refine ⟨rfl, rfl, ?_, ?_, ?_, ?_⟩
  · show (hustleLoop (realRunner db) now searches).1.items_found = 0
    rw [h]
  · show (hustleLoop (realRunner db) now searches).1.matches_created = 0
    rw [h]
  · show (hustleLoop (realRunner db) now searches).1.searches_processed = searches.length
    rw [h]
  · show (hustleLoop (realRunner db) now searches).2 = _
    rw [h]

/-- Closed witness for `hustle_stub_zero_results` on the sample searches:
zero items and matches, both searches processed, and exactly the four
timestamp / results-found writes in order. -/
theorem hustle_stub_zero_results_witness :
    (check_marketplace_searches (realRunner sampleHustleDb) "2026-10-12 08:00:00"
      sampleSearches).1.results.items_found = 0 ∧
    (check_marketplace_searches (realRunner sampleHustleDb) "2026-10-12 08:00:00"
      sampleSearches).1.results.searches_processed = 2 ∧
    (check_marketplace_searches (realRunner sampleHustleDb) "2026-10-12 08:00:00"
      sampleSearches).2 =
      [Effect.setValue "Saved Marketplace Search" "SMS-0001" "last_checked"
         "2026-10-12 08:00:00",
       Effect.setValue "Saved Marketplace Search" "SMS-0001" "results_found" "0",
       Effect.setValue "Saved Marketplace Search" "SMS-0002" "last_checked"
         "2026-10-12 08:00:00",
       Effect.setValue "Saved Marketplace Search" "SMS-0002" "results_found" "0"] := by
  have h := hustle_stub_zero_results sampleHustleDb sampleSearches[0] "2026-10-12 08:00:00"
    sampleSearches
  refine ⟨h.2.2.1, ?_, ?_⟩
  · rw [h.2.2.2.2.1]; decide
  · rw [h.2.2.2.2.2]; decide

/-- C8: the batch image loop and the marketplace search loop are bounded
sequential loops: `process_all_images` throws only on an empty images
list and otherwise returns, with the processed rows exactly the input
rows in enumeration order, each transformed once by the loop body; the
effect trace of `check_marketplace_searches` is the concatenation, in
input order, of each search's own effects, each search contributing
exactly once and being counted exactly once; totality of the embedding
functions witnesses termination, and neither loop recursion revisits an
element. -/
theorem bounded_sequential_loops (doc : UploadDoc) (o : Nat → ProcOutcome)
    (runner : SearchRec → Except String (SearchRunResult × List Effect))
    (now : String) (searches : List SearchRec) :
    (doc.images = [] → process_all_images o doc = .error "No images uploaded to process") ∧
    (doc.images ≠ [] → process_all_images o doc = .ok (runUpload o doc)) ∧
    (runUpload o doc).1.images =
      ((List.range' 0 doc.images.length).zip doc.images).map (rowResult doc o) ∧
    (runUpload o doc).1.images.length = doc.images.length ∧
    (check_marketplace_searches runner now searches).2 =
      searches.flatMap (searchTrace runner now) ∧
    (check_marketplace_searches runner now searches).1.results.searches_processed +
      (check_marketplace_searches runner now searches).1.results.errors.length
      = searches.length := by
  refine ⟨?_, process_all_images_ok o doc, runUpload_images o doc, ?_,
    hustleLoop_trace runner now searches,
    hustleLoop_processed_add_errors runner now searches⟩
  · intro h
    simp [process_all_images, h]
  · simp [runUpload, processRows_rows_length]

/-- Closed witness for `bounded_sequential_loops` on the sample inputs:
the two image rows are processed in order and the sample searches leave
their per-search effects in input order. -/
theorem bounded_sequential_loops_witness :
    process_all_images sampleOutcome sampleUploadDoc
      = .ok (runUpload sampleOutcome sampleUploadDoc) ∧
    (runUpload sampleOutcome sampleUploadDoc).1.images =
      ((List.range' 0 sampleUploadDoc.images.length).zip sampleUploadDoc.images).map
        (rowResult sampleUploadDoc sampleOutcome) ∧
    (check_marketplace_searches sampleRunner "2026-10-12 08:00:00" sampleSearches).2 =
      sampleSearches.flatMap (searchTrace sampleRunner "2026-10-12 08:00:00") := by
  have h := bounded_sequential_loops sampleUploadDoc sampleOutcome sampleRunner
    "2026-10-12 08:00:00" sampleSearches
  exact ⟨h.2.1 (by decide), h.2.2.1, h.2.2.2.2.1⟩

/-- C9: the whitelisted endpoints `process_batch_upload` and
`quick_batch_upload` never propagate an exception to the caller: every
internal failure surfaces as an error dictionary carrying the exception
text, every call returns either a success or an error dictionary, and the
`"No images uploaded to process"` throw of `process_all_images` on an
empty images list surfaces through both endpoints as such an error
dictionary rather than a raised exception. -/
theorem whitelisted_endpoints_catch_errors :
    (∀ o (doc : UploadDoc), doc.images = [] →
      process_batch_upload (.ok doc) o = .fail "No images uploaded to process") ∧
    (∀ o e, process_batch_upload (.error e) o = .fail e) ∧
    (∀ o getDoc, (∃ r, process_batch_upload getDoc o = .ok r) ∨
                 (∃ e, process_batch_upload getDoc o = .fail e)) ∧
    (∀ fileUrl insertDoc o w ig vr name, insertDoc = .ok name →
      quick_batch_upload (.ok (.list [])) fileUrl insertDoc o w ig vr
        = .fail "No images uploaded to process") ∧
    (∀ fileUrl insertDoc o w ig vr e,
      quick_batch_upload (.error e) fileUrl insertDoc o w ig vr = .fail e) ∧
    (∀ fileUrl insertDoc o w ig vr,
      quick_batch_upload (.ok .notList) fileUrl insertDoc o w ig vr
        = .fail "Images must be a list") ∧
    (∀ o (doc : UploadDoc), doc.images = [] →
      process_all_images o doc = .error "No images uploaded to process") := by
  refine ⟨?_, fun o e => rfl, ?_, ?_, fun fileUrl insertDoc o w ig vr e => rfl,
    fun fileUrl insertDoc o w ig vr => rfl, ?_⟩
  · intro o doc h
    simp [process_batch_upload, process_all_images, h]
  · intro o getDoc
    cases getDoc with
    | error e => exact Or.inr ⟨e, rfl⟩
    | ok doc =>
        cases hp : process_all_images o doc with
        | error e => exact Or.inr ⟨e, by simp [process_batch_upload, hp]⟩
        | ok pr => exact Or.inl ⟨pr.2, by simp [process_batch_upload, hp]⟩
  · intro fileUrl insertDoc o w ig vr name h
    subst h
    simp [quick_batch_upload, buildImageRows, process_all_images]
  · intro o doc h
    simp [process_all_images, h]

/-- Closed witness for `whitelisted_endpoints_catch_errors`: both
endpoints turn the empty-images throw into an error dictionary at
concrete inputs. -/
theorem whitelisted_endpoints_catch_errors_witness :
    process_batch_upload (.ok emptyUploadDoc) sampleOutcome
      = .fail "No images uploaded to process" ∧
    quick_batch_upload (.ok (.list [])) (fun _ => .ok "/files/x.png") (.ok "SCU-Q")
      sampleOutcome "Main" none none = .fail "No images uploaded to process" ∧
    process_batch_upload (.error "Stock Camera Upload SCU-MISSING not found") sampleOutcome
      = .fail "Stock Camera Upload SCU-MISSING not found" := by
  have h := whitelisted_endpoints_catch_errors
  exact ⟨h.1 sampleOutcome emptyUploadDoc rfl,
    h.2.2.2.1 (fun _ => .ok "/files/x.png") (.ok "SCU-Q") sampleOutcome "Main" none none
      "SCU-Q" rfl,
    h.2.1 sampleOutcome "Stock Camera Upload SCU-MISSING not found"⟩

theorem buildEntries_ids (lookupDoc : String → Except String ListingDoc)
    (message_type : String) :
    ∀ (ids : List String) (es : List RouteEntry),
      buildEntries lookupDoc message_type ids = .ok es →
      es.map RouteEntry.listing_id = ids := by
  intro ids
  induction ids with
  | nil =>
      intro es h
      simp only [buildEntries, Except.ok.injEq] at h
      subst h
      rfl
  | cons id rest ih =>
      intro es h
      simp only [buildEntries] at h
      cases hl : lookupDoc id with
      | error e => rw [hl] at h; exact absurd h (by simp)
      | ok d =>
          rw [hl] at h
          cases hb : buildEntries lookupDoc message_type rest with
          | error e => rw [hb] at h; exact absurd h (by simp)
          | ok es' =>
              rw [hb] at h
              simp only [Except.ok.injEq] at h
              subst h
              simp [ih es' hb]

/-- C4: every stubbed capability returns empty or simulated data:
`fetch_marketplace_items` returns the empty list for every marketplace,
query and last-checked argument; `check_bruktdel_listing` returns 0 for
every query, asset code and user (on both the normal and the exception
path); and `orchestrate_pickup_route` performs no route optimization:
whenever it succeeds, `optimal_route` is exactly the `listings` entry
list, which carries the input listing ids unchanged and in order. -/
theorem stubbed_capabilities :
    (∀ marketplace search_query last_checked,
      fetch_marketplace_items marketplace search_query last_checked = []) ∧
    (∀ search_query asset_code user logOutcome,
      check_bruktdel_listing search_query asset_code user logOutcome = 0) ∧
    (∀ lookupDoc ids start_location preferred_date message_type today plan,
      orchestrate_pickup_route lookupDoc ids start_location preferred_date message_type
        today = .ok plan →
      plan.optimal_route = plan.listings ∧
      plan.listings.map RouteEntry.listing_id = ids) := by
  refine ⟨fun _ _ _ => rfl, ?_, ?_⟩
  · intro q ac u lg
    cases lg <;> rfl
  · intro lookupDoc ids sl pd mt today plan h
    simp only [orchestrate_pickup_route] at h
    cases hb : buildEntries lookupDoc mt ids with
    | error e => rw [hb] at h; exact absurd h (by simp)
    | ok es =>
        rw [hb] at h
        simp only [RouteResponse.ok.injEq] at h
        subst h
        exact ⟨rfl, buildEntries_ids lookupDoc mt ids es hb⟩

/-- Closed witness for `stubbed_capabilities`: the stubs at concrete
arguments, and a concrete two-listing pickup route whose optimal route is
the unoptimized listings list. -/
theorem stubbed_capabilities_witness :
    fetch_marketplace_items "FINN.no" "pallet" none = [] ∧
    check_bruktdel_listing "porsche 944" (some "CAR-1") (some "a@b.no") none = 0 ∧
    ∃ plan,
      orchestrate_pickup_route sampleListingStore ["ML-0001", "ML-0002"] none none
        "standard" "2026-10-12" = .ok plan ∧
      plan.optimal_route = plan.listings ∧
      plan.listings.map RouteEntry.listing_id = ["ML-0001", "ML-0002"] := by
  have h := stubbed_capabilities
  refine ⟨h.1 "FINN.no" "pallet" none,
    h.2.1 "porsche 944" (some "CAR-1") (some "a@b.no") none, ?_⟩
  refine ⟨_, rfl, ?_⟩
  exact h.2.2 sampleListingStore ["ML-0001", "ML-0002"] none none "standard"
    "2026-10-12" _ rfl

theorem frostDayOf_eq_some (d : ForecastDay) (fd : FrostDay) :
    frostDayOf d = some fd ↔
      ∃ t, d.temp_min = some t ∧ t ≤ 0 ∧
        fd = { date := d.date, min_temperature := t,
               severity := if t ≤ -5 then "Hard Frost" else "Light Frost" } := by
  cases hm : d.temp_min with
  | none => simp [frostDayOf, hm]
  | some t =>
      by_cases h0 : t ≤ 0
      · simp only [frostDayOf, hm, if_pos h0, Option.some.injEq]
        constructor
        · intro h
          exact ⟨t, rfl, h0, h.symm⟩
        · rintro ⟨t', rfl, h0', hfd⟩
          exact hfd.symm
      · simp only [frostDayOf, hm, if_neg h0, Option.some.injEq]
        constructor
        · intro h
          exact absurd h (by simp)
        · rintro ⟨t', rfl, h0', _⟩
          exact absurd h0' h0

/-- C10: for every successfully fetched 7-day forecast, `get_frost_risk`
reports `frost_risk` `True` exactly when some forecast day has a defined
minimum temperature at most 0, its `frost_days` are exactly those days (in
order, with their dates and minimum temperatures), and each frost day has
severity `Hard Frost` exactly when its minimum temperature is at most -5
and `Light Frost` otherwise. -/
theorem frost_risk_assessment (days : List ForecastDay) :
    ∃ a, get_frost_risk (.ok days) = .ok a ∧
      a.success = true ∧
      a.frost_days = days.filterMap frostDayOf ∧
      (a.frost_risk = true ↔ ∃ d ∈ days, ∃ t, d.temp_min = some t ∧ t ≤ 0) ∧
      (∀ fd ∈ a.frost_days,
        ∃ d ∈ days, d.temp_min = some fd.min_temperature ∧ fd.date = d.date ∧
          fd.min_temperature ≤ 0 ∧
          (fd.severity = "Hard Frost" ↔ fd.min_temperature ≤ -5) ∧
          (fd.severity = "Light Frost" ↔ ¬ fd.min_temperature ≤ -5)) ∧
      (∀ d ∈ days, ∀ t, d.temp_min = some t → t ≤ 0 →
        ∃ fd ∈ a.frost_days, fd.date = d.date ∧ fd.min_temperature = t) := by
  refine ⟨_, rfl, rfl, rfl, ?_, ?_, ?_⟩
  · show decide (0 < (days.filterMap frostDayOf).length) = true ↔ _
    rw [decide_eq_true_iff, List.length_pos]
    constructor
    · intro hne
      obtain ⟨fd, hfd⟩ := List.exists_mem_of_ne_nil _ hne
      obtain ⟨d, hd, hsome⟩ := List.mem_filterMap.mp hfd
      obtain ⟨t, ht, h0, _⟩ := (frostDayOf_eq_some d fd).mp hsome
      exact ⟨d, hd, t, ht, h0⟩
    · rintro ⟨d, hd, t, ht, h0⟩
      apply List.ne_nil_of_mem
      exact List.mem_filterMap.mpr
        ⟨d, hd, (frostDayOf_eq_some d _).mpr ⟨t, ht, h0, rfl⟩⟩
  · intro fd hfd
    obtain ⟨d, hd, hsome⟩ := List.mem_filterMap.mp hfd
    obtain ⟨t, ht, h0, rfl⟩ := (frostDayOf_eq_some d fd).mp hsome
    refine ⟨d, hd, ht, rfl, h0, ?_, ?_⟩
    · by_cases h5 : t ≤ -5 <;> simp [h5]
    · by_cases h5 : t ≤ -5 <;> simp [h5]
  · intro d hd t ht h0
    refine ⟨{ date := d.date, min_temperature := t,
              severity := if t ≤ -5 then "Hard Frost" else "Light Frost" }, ?_, rfl, rfl⟩
    exact List.mem_filterMap.mpr ⟨d, hd, (frostDayOf_eq_some d _).mpr ⟨t, ht, h0, rfl⟩⟩

/-- Closed witness for `frost_risk_assessment` on the sample forecast:
frost risk is reported, with two frost days (0°: light, -7°: hard) and the
frost-free days excluded. -/
theorem frost_risk_assessment_witness :
    ∃ a, get_frost_risk (.ok sampleForecast) = .ok a ∧
      a.frost_risk = true ∧
      a.frost_days =
        [{ date := "2026-10-14", min_temperature := 0, severity := "Light Frost" },
         { date := "2026-10-15", min_temperature := -7, severity := "Hard Frost" }] := by
  obtain ⟨a, ha, _, hdays, hrisk, _, _⟩ := frost_risk_assessment sampleForecast
  refine ⟨a, ha, ?_, ?_⟩
  · exact hrisk.mpr ⟨sampleForecast[1], by decide, 0, rfl, by decide⟩
  · rw [hdays]
    decide

end Assist
